import Mathlib

/-!
Verification development for the `webgone` internet-outage monitor
(`src/main.rs`).

The program is embedded shallowly:

* Instants are nanoseconds since the Unix epoch (`Int`), as in
  `chrono::DateTime`; a `DateTime<Local>` value additionally carries the
  UTC offset (seconds) of the local timezone at that instant.
* The proleptic Gregorian conversion between epoch days and calendar
  dates (`civilFromDays` / `daysFromCivil`) models the conversions chrono
  and SQLite perform when rendering, parsing and bucketing timestamps.
* The SQLite queries of `main.rs` (`ORDER BY start_time DESC LIMIT ?`,
  aggregates, `strftime`-based grouping) are modelled over a `List` of
  stored rows, following SQLite's documented semantics: timezone-aware
  text timestamps are normalised to UTC by the date functions, a negative
  `LIMIT` means "no bound", aggregates over an empty table yield `NULL`.
* The `Watch` loop of `main` is a step function over the in-memory state
  `(is_connected, outage_start)` consuming one probe result per tick.

`Int` division `/` and `%` below are Lean's `Int.ediv`/`Int.emod`, which
floor for the positive literal divisors used here.
-/

/-! ### Proleptic Gregorian calendar

`civilFromDays`/`daysFromCivil` convert between a count of days since
1970-01-01 and a calendar date `(year, month, day)`, using the standard
era-based algorithm (eras of 400 years = 146097 days, March-based years).
They model the calendar arithmetic inside `chrono` and SQLite.
-/

/-- Days-before-year inside an era: days from the start of the era to the
start of (March-based) year-of-era `y`. -/
def dys (y : Int) : Int := 365 * y + y / 4 - y / 100

/-- Year-of-era of a day-of-era: inverse of `dys` as a step function. -/
def yoeOf (doe : Int) : Int := (doe - doe / 1460 + doe / 36524 - doe / 146096) / 365

/-- Calendar date `(year, month, day)` of a day count since 1970-01-01
(proleptic Gregorian). -/
def civilFromDays (z : Int) : Int × Int × Int :=
  let era := (z + 719468) / 146097
  let doe := z + 719468 - era * 146097
  let yoe := yoeOf doe
  let doy := doe - dys yoe
  let mp := (5 * doy + 2) / 153
  let d := doy - (153 * mp + 2) / 5 + 1
  let m := mp + (if mp < 10 then 3 else -9)
  (yoe + era * 400 + (if m ≤ 2 then 1 else 0), m, d)

/-- Day count since 1970-01-01 of a calendar date (proleptic Gregorian). -/
def daysFromCivil (y m d : Int) : Int :=
  let y' := y - (if m ≤ 2 then 1 else 0)
  let era := y' / 400
  let yoe := y' - era * 400
  let doy := (153 * (m + (if 2 < m then -3 else 9)) + 2) / 5 + d - 1
  era * 146097 + (365 * yoe + yoe / 4 - yoe / 100 + doy) - 719468

/-- The numerator of `yoeOf` is monotone in the day-of-era. -/
theorem yoeOf_num_mono (x y : Int) (h : x ≤ y) :
    x - x / 1460 + x / 36524 - x / 146096 ≤ y - y / 1460 + y / 36524 - y / 146096 := by
  have hx : x / 146096 = x / 36524 / 4 := by omega
  have hy : y / 146096 = y / 36524 / 4 := by omega
  have ha : x - x / 1460 ≤ y - y / 1460 := by omega
  have hb : x / 36524 - x / 36524 / 4 ≤ y / 36524 - y / 36524 / 4 := by omega
  omega

/-- `yoeOf` is monotone. -/
theorem yoeOf_mono (x y : Int) (h : x ≤ y) : yoeOf x ≤ yoeOf y :=
  Int.ediv_le_ediv (by norm_num) (yoeOf_num_mono x y h)

/-- Finite boundary check: on the first and last day of every year of an
era (the 366th day of year 399 checked separately), `yoeOf` returns that
year. -/
def yoeBoundaryOk : Bool :=
  (List.range 400).all fun n =>
    decide (yoeOf (dys (n : Int)) = (n : Int)) &&
      decide (yoeOf (dys ((n : Int) + 1) - 1) = (n : Int))

set_option maxRecDepth 100000 in
theorem yoeBoundary_holds : yoeBoundaryOk = true := by decide

theorem yoeBoundary (k : Int) (h0 : 0 ≤ k) (h1 : k ≤ 399) :
    yoeOf (dys k) = k ∧ yoeOf (dys (k + 1) - 1) = k := by
  have hk : ((k.toNat : Nat) : Int) = k := Int.toNat_of_nonneg h0
  have hall := yoeBoundary_holds
  rw [yoeBoundaryOk, List.all_eq_true] at hall
  have h2 := hall k.toNat (List.mem_range.mpr (by omega))
  simp only [Bool.and_eq_true, decide_eq_true_eq, hk] at h2
  exact h2

/-- Main year-of-era lemma: for a day-of-era in `[0, 146096]`, `yoeOf`
names the year-of-era whose day range contains it (day-of-year in
`[0, 365]`). -/
theorem yoeOf_correct (doe : Int) (h0 : 0 ≤ doe) (h1 : doe ≤ 146096) :
    0 ≤ yoeOf doe ∧ yoeOf doe ≤ 399 ∧ dys (yoeOf doe) ≤ doe ∧ doe - dys (yoeOf doe) ≤ 365 := by
  have e0 : yoeOf 0 = 0 := by decide
  have e1 : yoeOf 146096 = 399 := by decide
  have hlo : 0 ≤ yoeOf doe := by have := yoeOf_mono 0 doe h0; omega
  have hhi : yoeOf doe ≤ 399 := by have := yoeOf_mono doe 146096 h1; omega
  have hy2 : dys (yoeOf doe) ≤ doe := by
    by_contra hcon
    push_neg at hcon
    have h1k : 1 ≤ yoeOf doe := by
      by_contra hz
      push_neg at hz
      have hz0 : yoeOf doe = 0 := by omega
      rw [hz0] at hcon
      simp only [dys] at hcon
      omega
    obtain ⟨-, hb⟩ := yoeBoundary (yoeOf doe - 1) (by omega) (by omega)
    rw [show yoeOf doe - 1 + 1 = yoeOf doe by ring] at hb
    have := yoeOf_mono doe (dys (yoeOf doe) - 1) (by omega)
    omega
  refine ⟨hlo, hhi, hy2, ?_⟩
  rcases lt_or_le (yoeOf doe) 399 with hlt | hge
  · by_contra hcon
    push_neg at hcon
    obtain ⟨hb, -⟩ := yoeBoundary (yoeOf doe + 1) (by omega) (by omega)
    have hstep : dys (yoeOf doe + 1) ≤ dys (yoeOf doe) + 366 := by
      simp only [dys]; omega
    have := yoeOf_mono (dys (yoeOf doe + 1)) doe (by omega)
    omega
  · have h399 : yoeOf doe = 399 := by omega
    have hd : dys 399 = 145731 := by decide
    rw [h399, hd]
    omega

/-- Core algebraic step of the round trip, with every intermediate value
of `civilFromDays` abstracted to a variable. -/
theorem daysFromCivil_aux (z era doe yoe doy mp d : Int)
    (hera : era = (z + 719468) / 146097)
    (hdoe : doe = z + 719468 - era * 146097)
    (hy0 : 0 ≤ yoe) (hy1 : yoe ≤ 399)
    (hdoy : doy = doe - dys yoe)
    (hdoy0 : 0 ≤ doy) (hdoy1 : doy ≤ 365)
    (hmp : mp = (5 * doy + 2) / 153)
    (hd : d = doy - (153 * mp + 2) / 5 + 1) :
    daysFromCivil (yoe + era * 400 + (if mp + (if mp < 10 then 3 else -9) ≤ 2 then 1 else 0))
      (mp + (if mp < 10 then 3 else -9)) d = z := by
  have hmp0 : 0 ≤ mp := by omega
  have hmp1 : mp ≤ 11 := by omega
  unfold daysFromCivil
  simp only [dys] at hdoy
  by_cases hcase : mp < 10
  · rw [if_pos hcase]
    have hm2 : ¬ (mp + 3 ≤ (2 : Int)) := by omega
    rw [if_neg hm2, if_pos (show (2 : Int) < mp + 3 by omega)]
    dsimp only
    have hediv : (yoe + era * 400 + 0 - 0) / 400 = era := by omega
    rw [hediv]
    rw [show yoe + era * 400 + 0 - 0 - era * 400 = yoe by ring,
      show mp + 3 + -3 = mp by ring]
    omega
  · rw [if_neg hcase]
    have hm2 : mp + -9 ≤ (2 : Int) := by omega
    rw [if_pos hm2, if_neg (show ¬ ((2 : Int) < mp + -9) by omega)]
    dsimp only
    have hediv : (yoe + era * 400 + 1 - 1) / 400 = era := by omega
    rw [hediv]
    rw [show yoe + era * 400 + 1 - 1 - era * 400 = yoe by ring,
      show mp + -9 + 9 = mp by ring]
    omega

/-- The two directions of the calendar conversion compose to the identity
on day counts: `daysFromCivil` inverts `civilFromDays` on every day. -/
theorem daysFromCivil_civilFromDays (z : Int) :
    daysFromCivil (civilFromDays z).1 (civilFromDays z).2.1 (civilFromDays z).2.2 = z := by
  have h0 : 0 ≤ z + 719468 - (z + 719468) / 146097 * 146097 := by omega
  have h1 : z + 719468 - (z + 719468) / 146097 * 146097 ≤ 146096 := by omega
  obtain ⟨hy0, hy1, hy2, hy3⟩ := yoeOf_correct _ h0 h1
  exact daysFromCivil_aux z _ _ _ _ _ _ rfl rfl hy0 hy1 rfl (by omega) (by omega) rfl rfl

/-! ### Timestamps

A `chrono::DateTime<Local>` value is an instant (nanoseconds since the
Unix epoch) together with the UTC offset, in seconds, that the `Local`
timezone assigns to that instant. The timezone itself is modelled as a
function `loc : Int → Int` from instants (nanoseconds) to offsets.
-/

structure Timestamp where
  nanos : Int
  offsetSec : Int
deriving Repr, DecidableEq

/-- `chrono::TimeDelta::num_seconds` on a difference of `d` nanoseconds:
the internal representation stores `(secs, nanos)` with `secs` the floor
quotient and `0 ≤ nanos < 10^9`, and `num_seconds` adds `1` back when
`secs < 0` and `nanos > 0`, i.e. it truncates toward zero. -/
def numSeconds (d : Int) : Int :=
  if d / 1000000000 < 0 ∧ 0 < d % 1000000000 then d / 1000000000 + 1 else d / 1000000000

/-! ### RFC 3339 text

`DateTime::to_rfc3339` renders the local civil date and time, the
sub-second nanoseconds (in chrono's canonical 0/3/6/9-digit form, so the
components below determine the text uniquely) and the UTC offset.
`DateTime::parse_from_rfc3339` recovers a `DateTime<FixedOffset>` whose
instant is the rendered civil time minus the offset and whose offset is
the rendered one; `.with_timezone(&Local)` then re-derives the offset of
the local timezone at that instant.
-/

structure Rfc3339 where
  year : Int
  month : Int
  day : Int
  hour : Int
  minute : Int
  second : Int
  subsecNanos : Int
  offsetSec : Int
deriving Repr, DecidableEq

def toRfc3339 (t : Timestamp) : Rfc3339 :=
  let localNanos := t.nanos + t.offsetSec * 1000000000
  let sec := localNanos / 1000000000
  let sub := localNanos % 1000000000
  let days := sec / 86400
  let sod := sec % 86400
  let c := civilFromDays days
  ⟨c.1, c.2.1, c.2.2, sod / 3600, sod % 3600 / 60, sod % 60, sub, t.offsetSec⟩

def parseRfc3339 (x : Rfc3339) : Timestamp :=
  { nanos := (daysFromCivil x.year x.month x.day * 86400 + x.hour * 3600 + x.minute * 60
        + x.second - x.offsetSec) * 1000000000 + x.subsecNanos,
    offsetSec := x.offsetSec }

/-- `.with_timezone(&Local)`: same instant, offset re-read from the local
timezone. -/
def withLocalTimezone (loc : Int → Int) (t : Timestamp) : Timestamp :=
  { nanos := t.nanos, offsetSec := loc t.nanos }

/-- Formatting and re-parsing is the identity on the instant and keeps
the rendered offset. -/
theorem parseRfc3339_toRfc3339 (t : Timestamp) :
    parseRfc3339 (toRfc3339 t) = t := by
  unfold parseRfc3339 toRfc3339
  dsimp only
  rw [daysFromCivil_civilFromDays]
  obtain ⟨n, o⟩ := t
  simp only [Timestamp.mk.injEq]
  constructor
  · omega
  · trivial

/-! ### Data model (`main.rs` structs and the stored table) -/

structure InternetOutage where
  start_time : Timestamp
  end_time : Timestamp
  duration_seconds : Int
deriving Repr, DecidableEq

structure OutageStats where
  total_outages : Int
  total_duration : Int
  average_duration : ℚ
  longest_outage : Int
  shortest_outage : Int
deriving Repr, DecidableEq

structure MonthlyOutage where
  year : Int
  month : Int
  total_seconds : Int
  num_outages : Int
deriving Repr, DecidableEq

/-- A stored `start_time`/`end_time` column value, at the granularity the
program observes it: either text that chrono's RFC 3339 parser accepts
(carrying exactly the components the text renders), or text it rejects. -/
inductive StoredText where
  | valid (x : Rfc3339)
  | malformed
deriving Repr, DecidableEq

/-- One row of the `outages` table (the numeric row id is never read back
and is omitted). -/
structure StoredRow where
  start_text : StoredText
  end_text : StoredText
  duration_seconds : Int
deriving Repr, DecidableEq

/-- `log_outage`: INSERT of one row rendered with `to_rfc3339`. -/
def logOutage (db : List StoredRow) (o : InternetOutage) : List StoredRow :=
  db ++ [⟨.valid (toRfc3339 o.start_time), .valid (toRfc3339 o.end_time), o.duration_seconds⟩]

/-- The timestamp a query reads back from one stored column
(`DateTime::parse_from_rfc3339` followed by `.with_timezone(&Local)`),
or an error for text the parser rejects. -/
def parseStored (loc : Int → Int) : StoredText → Except Unit Timestamp
  | .valid x => .ok (withLocalTimezone loc (parseRfc3339 x))
  | .malformed => .error ()

/-- `InternetOutage::from_row`. -/
def fromRow (loc : Int → Int) (row : StoredRow) : Except Unit InternetOutage := do
  let s ← parseStored loc row.start_text
  let e ← parseStored loc row.end_text
  pure ⟨s, e, row.duration_seconds⟩

/-! ### The `Watch` monitoring loop

`main`'s `Watch` arm keeps two local variables, `is_connected` (initially
`true`) and `outage_start` (initially `None`), and on every tick matches
`(is_connected, current_status)`. A tick's input is the probe result,
`Local::now()`, and whether the `log_outage` INSERT succeeds if one is
attempted. In the `(false, true)` arm the code runs `log_outage(..)?`
*before* assigning `is_connected = true; outage_start = None`, so when
the `?` propagates a write error the two variables still hold their
pre-tick values; `TickResult.writeFailed` carries them as observed at
that point.
-/

structure ConnState where
  is_connected : Bool
  outage_start : Option Timestamp
deriving Repr, DecidableEq

structure TickInput where
  probe : Bool
  now : Timestamp
  writeOk : Bool
deriving Repr, DecidableEq

inductive Event where
  | lost (t : Timestamp)
  | appended (r : InternetOutage)
deriving Repr, DecidableEq

inductive TickResult where
  | ok (events : List Event) (s : ConnState)
  | writeFailed (attempted : InternetOutage) (s : ConnState)
deriving Repr, DecidableEq

def tick (s : ConnState) (i : TickInput) : TickResult :=
  match s.is_connected, i.probe with
  | true, false => .ok [.lost i.now] ⟨false, some i.now⟩
  | false, true =>
    match s.outage_start with
    | some start_time =>
      let d := numSeconds (i.now.nanos - start_time.nanos)
      let outage : InternetOutage := ⟨start_time, i.now, d⟩
      if i.writeOk then .ok [.appended outage] ⟨true, none⟩
      else .writeFailed outage s
    | none => .ok [] s
  | _, _ => .ok [] s

def tickEvents : TickResult → List Event
  | .ok evs _ => evs
  | .writeFailed _ _ => []

inductive RunResult where
  | ok (s : ConnState)
  | writeFailed (attempted : InternetOutage) (s : ConnState)
deriving Repr, DecidableEq

/-- The state the loop's variables hold when a run ends (normally or at a
propagated write error). -/
def runState : RunResult → ConnState
  | .ok s => s
  | .writeFailed _ s => s

/-- Run the loop over a list of tick inputs; a write failure stops it
(the `?` aborts `main`). Returns all emitted events and the outcome. -/
def runTicks : ConnState → List TickInput → List Event × RunResult
  | s, [] => ([], .ok s)
  | s, i :: rest =>
    match tick s i with
    | .ok evs s' =>
      let out := runTicks s' rest
      (evs ++ out.1, out.2)
    | .writeFailed r st => ([], .writeFailed r st)

def initState : ConnState := ⟨true, none⟩

def countLost : List Event → Nat
  | [] => 0
  | .lost _ :: es => countLost es + 1
  | .appended _ :: es => countLost es

def countAppended : List Event → Nat
  | [] => 0
  | .lost _ :: es => countAppended es
  | .appended _ :: es => countAppended es + 1

/-- The §3 `ConnectivityState` invariant. -/
def stateInv (s : ConnState) : Prop := s.outage_start.isSome = true ↔ s.is_connected = false

/-! ### Ledger read queries

`ORDER BY start_time` orders the stored *text* with SQLite's BINARY
collation. For the canonical `to_rfc3339` rendering this byte order is
the lexicographic order on (local civil date-time with its sub-second
part, then the offset string, `+HH:MM` offsets before `-HH:MM` ones and
each sign group by magnitude). `textKey` maps a stored text to that
order: local civil nanoseconds first, then an offset rank. The byte
order of text the RFC 3339 parser rejects is not modelled (no claim
depends on where such rows sort). SQLite's `LIMIT` clause returns all
rows when the bound is negative and none when it is zero.
-/

def lexLE (a b : Int × Int) : Prop := a.1 < b.1 ∨ (a.1 = b.1 ∧ a.2 ≤ b.2)

instance (a b : Int × Int) : Decidable (lexLE a b) := by
  unfold lexLE
  exact inferInstance

def offsetRank (off : Int) : Int := if 0 ≤ off then off else 1000000 - off

def civilNanos (x : Rfc3339) : Int :=
  (daysFromCivil x.year x.month x.day * 86400 + x.hour * 3600 + x.minute * 60 + x.second)
      * 1000000000 + x.subsecNanos

def textKey : StoredText → Int × Int
  | .valid x => (civilNanos x, offsetRank x.offsetSec)
  | .malformed => (0, 0)

/-- `ORDER BY start_time DESC` row order. -/
def rowDescLE (a b : StoredRow) : Prop := lexLE (textKey b.start_text) (textKey a.start_text)

/-- `ORDER BY start_time` (ascending) row order. -/
def rowAscLE (a b : StoredRow) : Prop := lexLE (textKey a.start_text) (textKey b.start_text)

instance (a b : StoredRow) : Decidable (rowDescLE a b) := by
  unfold rowDescLE
  exact inferInstance

instance (a b : StoredRow) : Decidable (rowAscLE a b) := by
  unfold rowAscLE
  exact inferInstance

instance : IsTotal StoredRow rowDescLE :=
  ⟨fun a b => by unfold rowDescLE lexLE; omega⟩

instance : IsTrans StoredRow rowDescLE :=
  ⟨fun a b c h1 h2 => by
    unfold rowDescLE lexLE at h1 h2 ⊢
    omega⟩

instance : IsTotal StoredRow rowAscLE :=
  ⟨fun a b => by unfold rowAscLE lexLE; omega⟩

instance : IsTrans StoredRow rowAscLE :=
  ⟨fun a b c h1 h2 => by
    unfold rowAscLE lexLE at h1 h2 ⊢
    omega⟩

/-- `print_recent_outages`'s query:
`SELECT * FROM outages ORDER BY start_time DESC LIMIT ?` with the `i64`
limit bound as the parameter. -/
def queryRecentRows (db : List StoredRow) (limit : Int) : List StoredRow :=
  let sorted := List.insertionSort rowDescLE db
  if limit < 0 then sorted else sorted.take limit.toNat

/-- `print_recent_outages`: maps `from_row` over the queried rows; the
first row whose timestamps fail to parse aborts the command with that
error (`outage.map_err(..)?`). -/
def printRecentOutages (loc : Int → Int) (db : List StoredRow) (limit : Int) :
    Except Unit (List InternetOutage) :=
  (queryRecentRows db limit).mapM (fromRow loc)

/-- `generate_csv`: reads all rows ordered by `start_time` ascending,
re-renders each parsed record with `to_rfc3339`; a row that fails to
parse aborts with that error. -/
def generateCsv (loc : Int → Int) (db : List StoredRow) :
    Except Unit (List (Rfc3339 × Rfc3339 × Int)) := do
  let outages ← (List.insertionSort rowAscLE db).mapM (fromRow loc)
  pure (outages.map fun o => (toRfc3339 o.start_time, toRfc3339 o.end_time, o.duration_seconds))

/-! ### `get_stats`

The aggregate query always returns one row. `COUNT(*)` is never `NULL`;
over an empty table `SUM`/`AVG`/`MAX`/`MIN` are `NULL`, `row.get` fails
on a `NULL` column of a non-nullable Rust type, and the source's
`.unwrap_or_default()` turns that failure into `0`/`0.0`. `AVG` is
modelled over `ℚ` (its floating-point rounding is immaterial to the
claims checked here).
-/

def sumDurations (db : List StoredRow) : Int := (db.map (·.duration_seconds)).sum

def aggSum (db : List StoredRow) : Option Int :=
  if db.isEmpty then none else some (sumDurations db)

def aggAvg (db : List StoredRow) : Option ℚ :=
  if db.isEmpty then none else some ((sumDurations db : ℚ) / (db.length : ℚ))

def aggMax (db : List StoredRow) : Option Int :=
  match db.map (·.duration_seconds) with
  | [] => none
  | x :: xs => some (xs.foldl max x)

def aggMin (db : List StoredRow) : Option Int :=
  match db.map (·.duration_seconds) with
  | [] => none
  | x :: xs => some (xs.foldl min x)

def getStats (db : List StoredRow) : OutageStats :=
  { total_outages := (db.length : Int),
    total_duration := (aggSum db).getD 0,
    average_duration := (aggAvg db).getD 0,
    longest_outage := (aggMax db).getD 0,
    shortest_outage := (aggMin db).getD 0 }

/-! ### `calculate_monthly_costs`

`strftime('%Y', start_time)` / `strftime('%m', start_time)`: SQLite's
date functions parse the timezone-qualified text and convert it to UTC
before extracting fields, so the grouping key is the calendar year and
month of the *UTC* instant, not of the civil fields the text shows. On
text the parser rejects, `strftime` yields `NULL` and the row mapper's
`row.get::<_, String>` fails, aborting the query. The `GROUP BY` with
`ORDER BY year DESC, month DESC` (zero-padded text, so text order is
numeric order) produces one aggregate row per distinct key, sorted
descending.
-/

/-- The `(strftime('%Y', ..), strftime('%m', ..))` key of a parsed text
value: calendar year and month of the UTC instant the text denotes. -/
def strftimeYM (x : Rfc3339) : Int × Int :=
  let utcSec := daysFromCivil x.year x.month x.day * 86400 + x.hour * 3600 + x.minute * 60
      + x.second - x.offsetSec
  let c := civilFromDays (utcSec / 86400)
  (c.1, c.2.1)

def rowYM (row : StoredRow) : Option (Int × Int) :=
  match row.start_text with
  | .valid x => some (strftimeYM x)
  | .malformed => none

/-- `ORDER BY year DESC, month DESC` on the group keys. -/
def ymDescLE (a b : Int × Int) : Prop := lexLE b a

instance (a b : Int × Int) : Decidable (ymDescLE a b) := by
  unfold ymDescLE
  exact inferInstance

instance : IsTotal (Int × Int) ymDescLE :=
  ⟨fun a b => by unfold ymDescLE lexLE; omega⟩

instance : IsTrans (Int × Int) ymDescLE :=
  ⟨fun a b c h1 h2 => by
    unfold ymDescLE lexLE at h1 h2 ⊢
    omega⟩

/-- The aggregate row `GROUP BY` produces for one key: `COUNT(*)` and
`SUM(duration_seconds)` over the rows with that key. -/
def mkMonthly (db : List StoredRow) (k : Int × Int) : MonthlyOutage :=
  { year := k.1, month := k.2,
    num_outages := ((db.filter fun r => rowYM r = some k).length : Int),
    total_seconds := sumDurations (db.filter fun r => rowYM r = some k) }

def calculateMonthlyCosts (db : List StoredRow) : Except Unit (List MonthlyOutage) := do
  let keys ← db.mapM fun r =>
    match r.start_text with
    | .valid x => Except.ok (strftimeYM x)
    | .malformed => Except.error ()
  let grouped := List.insertionSort ymDescLE keys.dedup
  pure (grouped.map (mkMonthly db))

/-! ### `print_cost_report`

`days_in_month` from the `Cost` arm (the `f64` literals are the exact
integers 28–31; modelled as `Int`). Rust's `%` on `i32` is truncating
remainder, `Int.tmod`.
-/

def daysInMonth (year month : Int) : Int :=
  if month = 4 ∨ month = 6 ∨ month = 9 ∨ month = 11 then 30
  else if month = 2 then
    if Int.tmod year 4 = 0 ∧ (Int.tmod year 100 ≠ 0 ∨ Int.tmod year 400 = 0) then 29 else 28
  else 31

/-! ### State machine lemmas -/

theorem countLost_append (a b : List Event) :
    countLost (a ++ b) = countLost a + countLost b := by
  induction a with
  | nil => simp [countLost]
  | cons e es ih => cases e <;> simp [countLost, ih] <;> omega

theorem countAppended_append (a b : List Event) :
    countAppended (a ++ b) = countAppended a + countAppended b := by
  induction a with
  | nil => simp [countAppended]
  | cons e es ih => cases e <;> simp [countAppended, ih] <;> omega

/-- A write failure can only come out of the `(false, true)` arm with an
open outage and a failing INSERT; the variables it leaves behind are the
untouched pre-tick ones. -/
theorem tick_writeFailed (s : ConnState) (i : TickInput) (r : InternetOutage)
    (st : ConnState) (h : tick s i = .writeFailed r st) :
    st = s ∧ s.is_connected = false ∧ s.outage_start = some r.start_time ∧
      r.end_time = i.now := by
  rcases s with ⟨c, os⟩
  rcases i with ⟨p, now, w⟩
  cases c <;> cases p <;> cases os <;> simp [tick] at h <;> cases w <;> simp at h
  · obtain ⟨h1, h2⟩ := h
    rw [← h1, ← h2]
    simp

/-- Invariant preservation plus loss/append accounting along any run. -/
theorem runTicks_inv_count (inputs : List TickInput) :
    ∀ s, stateInv s →
      stateInv (runState (runTicks s inputs).2) ∧
      countLost (runTicks s inputs).1 + (if s.is_connected then 0 else 1)
        = countAppended (runTicks s inputs).1
          + (if (runState (runTicks s inputs).2).is_connected then 0 else 1) := by
  induction inputs with
  | nil =>
    intro s hs
    exact ⟨hs, rfl⟩
  | cons i rest ih =>
    intro s hs
    rcases s with ⟨c, os⟩
    rcases i with ⟨p, now, w⟩
    cases c <;> rcases os with - | t <;> simp [stateInv] at hs
    · -- disconnected with an open outage
      cases p
      · -- probe still failing: no-op tick
        have h := ih ⟨false, some t⟩ (by simp [stateInv])
        simpa [runTicks, tick, countLost_append, countAppended_append] using h
      · -- probe back up: append attempted
        cases w
        · -- INSERT fails: run stops, variables untouched
          simp [runTicks, tick, runState, countLost, countAppended, stateInv]
        · -- INSERT succeeds: back to Connected
          obtain ⟨h1, h2⟩ := ih ⟨true, none⟩ (by simp [stateInv])
          refine ⟨by simpa [runTicks, tick] using h1, ?_⟩
          simp [runTicks, tick, countLost_append, countAppended_append,
            countLost, countAppended] at h2 ⊢
          omega
    · -- connected with no open outage
      cases p
      · -- probe fails: outage opens, "lost" emitted
        obtain ⟨h1, h2⟩ := ih ⟨false, some now⟩ (by simp [stateInv])
        refine ⟨by simpa [runTicks, tick] using h1, ?_⟩
        simp [runTicks, tick, countLost_append, countAppended_append,
          countLost, countAppended] at h2 ⊢
        omega
      · -- probe fine: no-op tick
        have h := ih ⟨true, none⟩ (by simp [stateInv])
        simpa [runTicks, tick, countLost_append, countAppended_append] using h

/-- C1: from the initial `Connected`/no-open-outage state, a tick never
emits "connection lost" when already disconnected and never appends to
the ledger when already connected; every reachable state has
`outage_start` set iff `is_connected` is false; and the successful
appends of a run are exactly its completed lost→restored pairs (the
losses, minus the one still open when the run ends disconnected). -/
theorem monitor_state_machine_correct (inputs : List TickInput) :
    stateInv (runState (runTicks initState inputs).2) ∧
    (∀ s i, stateInv s → s.is_connected = false →
      ∀ t, Event.lost t ∉ tickEvents (tick s i)) ∧
    (∀ s i, stateInv s → s.is_connected = true →
      ∀ r, Event.appended r ∉ tickEvents (tick s i)) ∧
    countAppended (runTicks initState inputs).1
        + (if (runState (runTicks initState inputs).2).is_connected then 0 else 1)
      = countLost (runTicks initState inputs).1 := by
  obtain ⟨h1, h2⟩ := runTicks_inv_count inputs initState (by simp [stateInv, initState])
  refine ⟨h1, ?_, ?_, ?_⟩
  · intro s i hs hc t
    rcases s with ⟨c, os⟩
    rcases i with ⟨p, now, w⟩
    simp only at hc
    subst hc
    rcases os with - | u <;> simp [stateInv] at hs <;> cases p <;> cases w <;>
      simp [tick, tickEvents]
  · intro s i hs hc r
    rcases s with ⟨c, os⟩
    rcases i with ⟨p, now, w⟩
    simp only at hc
    subst hc
    rcases os with - | u <;> simp [stateInv] at hs <;> cases p <;> cases w <;>
      simp [tick, tickEvents]
  · simp [initState] at h2 ⊢
    omega

/-- C2: a record persisted on the disconnected→connected transition has
`start_time` the opened outage timestamp, `end_time` the tick's clock
reading, and `duration_seconds` their difference in whole seconds,
floored; when the clock has not gone backwards (`end ≥ start`) it is
non-negative. -/
theorem outage_duration_floor (s : ConnState) (i : TickInput) (start : Timestamp)
    (hconn : s.is_connected = false) (hstart : s.outage_start = some start)
    (hclock : start.nanos ≤ i.now.nanos) :
    ∀ r : InternetOutage, Event.appended r ∈ tickEvents (tick s i) →
      r.start_time = start ∧ r.end_time = i.now ∧
      r.duration_seconds = (r.end_time.nanos - r.start_time.nanos) / 1000000000 ∧
      r.duration_seconds = Int.fdiv (r.end_time.nanos - r.start_time.nanos) 1000000000 ∧
      0 ≤ r.duration_seconds := by
  intro r hr
  rcases s with ⟨c, os⟩
  rcases i with ⟨p, now, w⟩
  simp only at hconn hstart hclock
  subst hconn
  subst hstart
  have hnum : numSeconds (now.nanos - start.nanos) = (now.nanos - start.nanos) / 1000000000 := by
    unfold numSeconds
    rw [if_neg]
    omega
  cases p <;> cases w <;> simp [tick, tickEvents] at hr
  obtain rfl := hr
  refine ⟨rfl, rfl, ?_, ?_, ?_⟩
  · simpa using hnum
  · rw [Int.fdiv_eq_ediv _ (by norm_num)]
    simpa using hnum
  · simp only [hnum]
    omega

/-- C9: when the `log_outage` INSERT fails on a disconnected→connected
transition, the run returns that error immediately: the remaining ticks
are never consumed, no further events are emitted, and the write is
attempted exactly once (the equation's right side does not depend on
`rest`). -/
theorem write_failure_aborts (s : ConnState) (i : TickInput) (rest : List TickInput)
    (start : Timestamp) (hconn : s.is_connected = false)
    (hstart : s.outage_start = some start) (hprobe : i.probe = true)
    (hfail : i.writeOk = false) :
    runTicks s (i :: rest) =
      ([], .writeFailed ⟨start, i.now, numSeconds (i.now.nanos - start.nanos)⟩ s) := by
  rcases s with ⟨c, os⟩
  rcases i with ⟨p, now, w⟩
  simp only at hconn hstart hprobe hfail
  subst hconn
  subst hstart
  subst hprobe
  subst hfail
  simp [runTicks, tick]

/-- C10: if a run from the initial state stops with a write failure, the
loop variables at the moment the error propagates still show the outage
open: `is_connected` is `false` and `outage_start` still holds the
failed record's start timestamp, because the code clears them only after
`log_outage` returns `Ok`. -/
theorem write_failure_state_unchanged (inputs : List TickInput) (r : InternetOutage)
    (st : ConnState) (h : (runTicks initState inputs).2 = .writeFailed r st) :
    st.is_connected = false ∧ st.outage_start = some r.start_time := by
  suffices hgen : ∀ s, (runTicks s inputs).2 = .writeFailed r st →
      st.is_connected = false ∧ st.outage_start = some r.start_time from hgen initState h
  clear h
  induction inputs with
  | nil =>
    intro s hseq
    simp [runTicks] at hseq
  | cons i rest ih =>
    intro s hseq
    cases htick : tick s i with
    | ok evs s' =>
      simp only [runTicks] at hseq
      rw [htick] at hseq
      exact ih s' hseq
    | writeFailed r' st' =>
      simp only [runTicks] at hseq
      rw [htick] at hseq
      injection hseq with hr hst
      obtain ⟨hst2, hc, hos, -⟩ := tick_writeFailed s i r' st' htick
      rw [← hst, ← hr, hst2]
      exact ⟨hc, hos⟩

/-- C5: for a record whose timestamps carry the local offset of their own
instant (as every `Local::now()` value does), rendering both timestamps
with `to_rfc3339` into a stored row and reading that row back the way the
queries do (`parse_from_rfc3339` + `.with_timezone(&Local)`) returns the
identical record: same instants to the nanosecond, same offsets. -/
theorem stored_timestamp_round_trip (loc : Int → Int) (o : InternetOutage)
    (h1 : o.start_time.offsetSec = loc o.start_time.nanos)
    (h2 : o.end_time.offsetSec = loc o.end_time.nanos) :
    fromRow loc ⟨.valid (toRfc3339 o.start_time), .valid (toRfc3339 o.end_time),
      o.duration_seconds⟩ = .ok o := by
  rcases o with ⟨⟨sn, so⟩, ⟨en, eo⟩, d⟩
  simp only at h1 h2
  simp [fromRow, parseStored, parseRfc3339_toRfc3339, withLocalTimezone, h1, h2]
  rfl

/-- C6: `days_in_month` follows the calendar rules: 30 for
April/June/September/November, 29 for a leap-rule February (divisible by
4 and either not by 100 or by 400), 28 for any other February, 31 for
every other month value; in particular February 2024 gives 29 and
February 2023 gives 28. -/
theorem cost_days_in_month_rule (y : Int) (hy : 0 ≤ y) :
    (daysInMonth y 4 = 30 ∧ daysInMonth y 6 = 30 ∧ daysInMonth y 9 = 30 ∧
      daysInMonth y 11 = 30) ∧
    (daysInMonth y 2 = if 4 ∣ y ∧ (¬ (100 ∣ y) ∨ 400 ∣ y) then 29 else 28) ∧
    (∀ m : Int, m ≠ 2 → m ≠ 4 → m ≠ 6 → m ≠ 9 → m ≠ 11 → daysInMonth y m = 31) ∧
    daysInMonth 2024 2 = 29 ∧ daysInMonth 2023 2 = 28 := by
  have h4 : Int.tmod y 4 = y % 4 := Int.tmod_eq_emod hy (by norm_num)
  have h100 : Int.tmod y 100 = y % 100 := Int.tmod_eq_emod hy (by norm_num)
  have h400 : Int.tmod y 400 = y % 400 := Int.tmod_eq_emod hy (by norm_num)
  refine ⟨by norm_num [daysInMonth], ?_, ?_, by decide, by decide⟩
  · simp only [daysInMonth]
    norm_num
    rw [h4, h100, h400]
    by_cases hc : y % 4 = 0 ∧ (y % 100 ≠ 0 ∨ y % 400 = 0)
    · rw [if_pos hc, if_pos (by omega : 4 ∣ y ∧ (¬ (100 ∣ y) ∨ 400 ∣ y))]
    · rw [if_neg hc, if_neg (by omega : ¬ (4 ∣ y ∧ (¬ (100 ∣ y) ∨ 400 ∣ y)))]
  · intro m hm2 hm4 hm6 hm9 hm11
    simp only [daysInMonth]
    rw [if_neg (by tauto), if_neg hm2]

/-- C7: over an empty ledger the stats query yields count 0 and, through
`unwrap_or_default()` on the `NULL` aggregate columns, zero for the
total, average, longest and shortest durations, instead of an error. -/
theorem stats_empty_ledger_zero : getStats [] = ⟨0, 0, 0, 0, 0⟩ := rfl

theorem mapM_fromRow_error (loc : Int → Int) (l : List StoredRow) (x : StoredRow)
    (hx : x ∈ l) (hf : fromRow loc x = .error ()) : l.mapM (fromRow loc) = .error () := by
  induction l with
  | nil => cases hx
  | cons y ys ih =>
    rw [List.mapM_cons]
    rcases List.mem_cons.mp hx with rfl | hx'
    · rw [hf]
      rfl
    · cases hfy : fromRow loc y with
      | error e => rfl
      | ok b =>
        rw [ih hx']
        rfl

/-- C8: a row whose stored `start_time` or `end_time` text the RFC 3339
parser rejects makes every read query that reaches it fail with the
surfaced error: the recent listing errors whenever the row is within the
queried window, and the CSV export errors whenever the row is in the
ledger; neither silently skips the row. -/
theorem malformed_row_fails_queries (loc : Int → Int) (db : List StoredRow)
    (limit : Int) (row : StoredRow)
    (hbad : row.start_text = .malformed ∨ row.end_text = .malformed) :
    (row ∈ queryRecentRows db limit → printRecentOutages loc db limit = .error ()) ∧
    (row ∈ db → generateCsv loc db = .error ()) := by
  have hfrom : fromRow loc row = .error () := by
    rcases row with ⟨st, et, d⟩
    simp only at hbad
    cases st <;> cases et <;> simp_all [fromRow, parseStored] <;> rfl
  constructor
  · intro hmem
    exact mapM_fromRow_error loc _ row hmem hfrom
  · intro hmem
    have hmem' : row ∈ List.insertionSort rowAscLE db :=
      ((List.perm_insertionSort rowAscLE db).mem_iff).mpr hmem
    unfold generateCsv
    rw [mapM_fromRow_error loc _ row hmem' hfrom]
    rfl

/-! ### Claims about the monthly grouping and the recent listing -/

/-- The keys the monthly query successfully extracts when every stored
`start_time` parses: one per row, matching `rowYM`. -/
theorem monthlyKeys_ok (db : List StoredRow)
    (hvalid : ∀ r ∈ db, r.start_text ≠ StoredText.malformed) :
    ∃ ks : List (Int × Int),
      (db.mapM fun r =>
        match r.start_text with
        | .valid x => Except.ok (strftimeYM x)
        | .malformed => Except.error ()) = .ok ks ∧
      ∀ k, k ∈ ks ↔ ∃ r ∈ db, rowYM r = some k := by
  induction db with
  | nil =>
    refine ⟨[], rfl, ?_⟩
    simp
  | cons r rest ih =>
    have hr := hvalid r (by simp)
    obtain ⟨ks, hks, hmem⟩ := ih fun x hx => hvalid x (by simp [hx])
    rcases hrt : r.start_text with x | -
    · refine ⟨strftimeYM x :: ks, ?_, ?_⟩
      · rw [List.mapM_cons, hrt, hks]
        rfl
      · intro k
        simp only [List.mem_cons, hmem, rowYM, hrt]
        constructor
        · rintro (rfl | ⟨r', hr', hk'⟩)
          · exact ⟨r, by simp, by simp [rowYM, hrt]⟩
          · exact ⟨r', by simp [hr'], by simpa [rowYM] using hk'⟩
        · rintro ⟨r', hr', hk'⟩
          rcases hr' with rfl | hr''
          · left
            simp only [rowYM, hrt, Option.some.injEq] at hk'
            exact hk'.symm
          · right
            exact ⟨r', hr'', hk'⟩
    · exact absurd hrt hr

/-- C3 amended: over rows whose stored `start_time` all parse, the
monthly query returns one group per distinct *UTC* calendar month of the
stored start texts (SQLite's `strftime` converts timezone-qualified text
to UTC before extracting `%Y`/`%m`), with `num_outages` the row count of
the group, `total_seconds` the sum of its durations, and the groups
ordered descending by year then month. -/
theorem monthly_grouping_correct (db : List StoredRow)
    (hvalid : ∀ r ∈ db, r.start_text ≠ StoredText.malformed) :
    ∃ groups, calculateMonthlyCosts db = .ok groups ∧
      List.Sorted ymDescLE (groups.map fun g => (g.year, g.month)) ∧
      (groups.map fun g => (g.year, g.month)).Nodup ∧
      (∀ g ∈ groups,
        g.num_outages =
          ((db.filter fun r => rowYM r = some (g.year, g.month)).length : Int) ∧
        g.total_seconds =
          sumDurations (db.filter fun r => rowYM r = some (g.year, g.month)) ∧
        ∃ r ∈ db, rowYM r = some (g.year, g.month)) ∧
      (∀ r ∈ db, ∃ g ∈ groups, rowYM r = some (g.year, g.month)) := by
  obtain ⟨ks, hks, hmem⟩ := monthlyKeys_ok db hvalid
  have hperm := List.perm_insertionSort ymDescLE ks.dedup
  have heq : ∀ L : List (Int × Int),
      (L.map (mkMonthly db)).map (fun g => (g.year, g.month)) = L := by
    intro L
    rw [List.map_map]
    exact List.map_id L
  refine ⟨(List.insertionSort ymDescLE ks.dedup).map (mkMonthly db), ?_, ?_, ?_, ?_, ?_⟩
  · unfold calculateMonthlyCosts
    rw [hks]
    rfl
  · rw [heq]
    exact List.sorted_insertionSort ymDescLE ks.dedup
  · rw [heq]
    exact hperm.symm.nodup (List.nodup_dedup ks)
  · intro g hg
    obtain ⟨k, hk, rfl⟩ := List.mem_map.mp hg
    have hk' : k ∈ ks := List.mem_dedup.mp (hperm.mem_iff.mp hk)
    obtain ⟨r, hr, hkr⟩ := (hmem k).mp hk'
    exact ⟨rfl, rfl, r, hr, hkr⟩
  · intro r hr
    rcases hrt : r.start_text with x | -
    · have hk : strftimeYM x ∈ ks := (hmem (strftimeYM x)).mpr ⟨r, hr, by simp [rowYM, hrt]⟩
      refine ⟨mkMonthly db (strftimeYM x), List.mem_map.mpr
        ⟨strftimeYM x, hperm.mem_iff.mpr (List.mem_dedup.mpr hk), rfl⟩, ?_⟩
      simp [rowYM, hrt, mkMonthly]
    · exact absurd hrt (hvalid r hr)

/-- The second and third fields of a `mkMonthly` coincide with the
group's key (structure eta). -/
theorem mkMonthly_key (db : List StoredRow) (k : Int × Int) :
    ((mkMonthly db k).year, (mkMonthly db k).month) = k := rfl

/-- The grouping key the spec's words prescribe: the calendar year and
month of `start_time` in *local* time, i.e. the civil year and month
fields the stored text itself shows. -/
def specLocalYM (row : StoredRow) : Option (Int × Int) :=
  match row.start_text with
  | .valid x => some (x.year, x.month)
  | .malformed => none

/-- A row beginning 2024-03-01T00:30:00+02:00 local time, i.e. at the
UTC instant 2024-02-29T22:30:00Z. -/
def dstRow : StoredRow :=
  ⟨.valid ⟨2024, 3, 1, 0, 30, 0, 0, 7200⟩, .valid ⟨2024, 3, 1, 0, 35, 0, 0, 7200⟩, 300⟩

/-- C3 counterexample: the monthly query buckets `dstRow` under
February 2024 — the calendar month of its UTC instant — while its local
calendar month is March 2024, so the grouping is not by local time as
the claim states. -/
theorem monthly_group_not_local_counterexample :
    calculateMonthlyCosts [dstRow] =
      .ok [{ year := 2024, month := 2, total_seconds := 300, num_outages := 1 }] ∧
    specLocalYM dstRow = some (2024, 3) ∧
    calculateMonthlyCosts [dstRow] ≠
      .ok [{ year := 2024, month := 3, total_seconds := 300, num_outages := 1 }] := by
  have h1 : calculateMonthlyCosts [dstRow] =
      .ok [{ year := 2024, month := 2, total_seconds := 300, num_outages := 1 }] := rfl
  refine ⟨h1, rfl, ?_⟩
  rw [h1]
  simp

/-- Sample rows for concrete evaluations. -/
def sampleRow : StoredRow :=
  ⟨.valid ⟨2024, 1, 1, 0, 0, 0, 0, 0⟩, .valid ⟨2024, 1, 1, 0, 5, 0, 0, 0⟩, 300⟩

def badRow : StoredRow := ⟨.malformed, .valid ⟨2024, 1, 1, 0, 5, 0, 0, 0⟩, 300⟩

/-- C4 counterexample: with a negative limit the query returns every
row — SQLite reads a negative `LIMIT` as "no upper bound" — not the
empty sequence the claim assigns to every `limit ≤ 0`. -/
theorem query_recent_negative_limit_counterexample :
    queryRecentRows [sampleRow] (-1) = [sampleRow] ∧
      queryRecentRows [sampleRow] (-1) ≠ [] := by
  refine ⟨by decide, by decide⟩

/-- C4 amended: the recent query returns rows sorted descending by the
stored `start_time` key (newest first); `limit = 0` yields the empty
sequence, a negative limit yields *all* rows, and a positive limit at
most `limit` rows. -/
theorem query_recent_limit_behavior (db : List StoredRow) (limit : Int) :
    List.Sorted rowDescLE (queryRecentRows db limit) ∧
    (limit = 0 → queryRecentRows db limit = []) ∧
    (limit < 0 → (queryRecentRows db limit).Perm db) ∧
    (0 < limit → ((queryRecentRows db limit).length : Int) ≤ limit) := by
  have hsorted := List.sorted_insertionSort rowDescLE db
  refine ⟨?_, ?_, ?_, ?_⟩
  · unfold queryRecentRows
    by_cases h : limit < 0
    · rw [if_pos h]
      exact hsorted
    · rw [if_neg h]
      exact List.Pairwise.sublist (List.take_sublist _ _) hsorted
  · intro h
    subst h
    simp [queryRecentRows]
  · intro h
    unfold queryRecentRows
    rw [if_pos h]
    exact List.perm_insertionSort rowDescLE db
  · intro h
    unfold queryRecentRows
    rw [if_neg (by omega)]
    have h1 : (List.take limit.toNat (List.insertionSort rowDescLE db)).length ≤ limit.toNat := by
      rw [List.length_take]
      exact Nat.min_le_left _ _
    omega

/-! ### Concrete instantiations -/

def outageW : InternetOutage := ⟨⟨0, 0⟩, ⟨5500000000, 0⟩, 5⟩

def locW : Int → Int := fun _ => 3600

def outageLocalW : InternetOutage := ⟨⟨100, 3600⟩, ⟨5600000000, 3600⟩, 5⟩

theorem monitor_state_machine_correct_witness :
    stateInv (runState (runTicks initState
        [⟨false, ⟨0, 0⟩, true⟩, ⟨true, ⟨5500000000, 0⟩, true⟩]).2) ∧
    Event.lost ⟨7, 0⟩ ∉ tickEvents (tick ⟨false, some ⟨0, 0⟩⟩ ⟨false, ⟨7, 0⟩, true⟩) ∧
    Event.appended outageW ∉ tickEvents (tick ⟨true, none⟩ ⟨true, ⟨7, 0⟩, true⟩) ∧
    countAppended (runTicks initState
          [⟨false, ⟨0, 0⟩, true⟩, ⟨true, ⟨5500000000, 0⟩, true⟩]).1
        + (if (runState (runTicks initState
            [⟨false, ⟨0, 0⟩, true⟩, ⟨true, ⟨5500000000, 0⟩, true⟩]).2).is_connected
            then 0 else 1)
      = countLost (runTicks initState
          [⟨false, ⟨0, 0⟩, true⟩, ⟨true, ⟨5500000000, 0⟩, true⟩]).1 := by
  obtain ⟨h1, h2, h3, h4⟩ := monitor_state_machine_correct
    [⟨false, ⟨0, 0⟩, true⟩, ⟨true, ⟨5500000000, 0⟩, true⟩]
  exact ⟨h1,
    h2 ⟨false, some ⟨0, 0⟩⟩ ⟨false, ⟨7, 0⟩, true⟩ (by simp [stateInv]) rfl ⟨7, 0⟩,
    h3 ⟨true, none⟩ ⟨true, ⟨7, 0⟩, true⟩ (by simp [stateInv]) rfl outageW, h4⟩

theorem outage_duration_floor_witness :
    outageW.start_time = ⟨0, 0⟩ ∧ outageW.end_time = ⟨5500000000, 0⟩ ∧
    outageW.duration_seconds =
      (outageW.end_time.nanos - outageW.start_time.nanos) / 1000000000 ∧
    outageW.duration_seconds =
      Int.fdiv (outageW.end_time.nanos - outageW.start_time.nanos) 1000000000 ∧
    0 ≤ outageW.duration_seconds :=
  outage_duration_floor ⟨false, some ⟨0, 0⟩⟩ ⟨true, ⟨5500000000, 0⟩, true⟩ ⟨0, 0⟩
    rfl rfl (by decide) outageW (by decide)

theorem monthly_grouping_correct_witness :
    ∃ groups, calculateMonthlyCosts [dstRow] = Except.ok groups :=
  (monthly_grouping_correct [dstRow] (by decide)).elim fun gs h => ⟨gs, h.1⟩

theorem query_recent_limit_behavior_witness :
    queryRecentRows [sampleRow] 0 = [] ∧
    (queryRecentRows [sampleRow] (-2)).Perm [sampleRow] ∧
    ((queryRecentRows [sampleRow] 1).length : Int) ≤ 1 :=
  ⟨(query_recent_limit_behavior [sampleRow] 0).2.1 rfl,
    (query_recent_limit_behavior [sampleRow] (-2)).2.2.1 (by norm_num),
    (query_recent_limit_behavior [sampleRow] 1).2.2.2 (by norm_num)⟩

theorem stored_timestamp_round_trip_witness :
    fromRow locW ⟨.valid (toRfc3339 outageLocalW.start_time),
      .valid (toRfc3339 outageLocalW.end_time), outageLocalW.duration_seconds⟩ =
      .ok outageLocalW :=
  stored_timestamp_round_trip locW outageLocalW rfl rfl

theorem cost_days_in_month_rule_witness :
    daysInMonth 2024 2 = 29 ∧ daysInMonth 2023 2 = 28 :=
  (cost_days_in_month_rule 2024 (by norm_num)).2.2.2

theorem malformed_row_fails_queries_witness :
    printRecentOutages (fun _ => 0) [badRow] 1 = .error () ∧
      generateCsv (fun _ => 0) [badRow] = .error () := by
  obtain ⟨h1, h2⟩ := malformed_row_fails_queries (fun _ => 0) [badRow] 1 badRow (Or.inl rfl)
  exact ⟨h1 (by decide), h2 (by decide)⟩

theorem write_failure_aborts_witness :
    runTicks ⟨false, some ⟨0, 0⟩⟩ [⟨true, ⟨5500000000, 0⟩, false⟩] =
      ([], .writeFailed ⟨⟨0, 0⟩, ⟨5500000000, 0⟩,
        numSeconds ((5500000000 : Int) - 0)⟩ ⟨false, some ⟨0, 0⟩⟩) :=
  write_failure_aborts ⟨false, some ⟨0, 0⟩⟩ ⟨true, ⟨5500000000, 0⟩, false⟩ [] ⟨0, 0⟩
    rfl rfl rfl rfl

theorem write_failure_state_unchanged_witness :
    (⟨false, some ⟨0, 0⟩⟩ : ConnState).is_connected = false ∧
      (⟨false, some ⟨0, 0⟩⟩ : ConnState).outage_start = some outageW.start_time :=
  write_failure_state_unchanged
    [⟨false, ⟨0, 0⟩, true⟩, ⟨true, ⟨5500000000, 0⟩, false⟩]
    outageW ⟨false, some ⟨0, 0⟩⟩ (by decide)
